import Mathlib

/-!
# Verification of the `UserStore` session/profile-cache module

Shallow embedding of `src/scripts/watchFileChanges.js` (second document in the
file: the MobX `UserStore` class and its private helpers).  JavaScript objects
are modelled as association lists of string keys and dynamic values; the MobX
observable `Map` (`usersMap`) is modelled as an insertion-ordered association
list with JS `Map.set` semantics (update in place keeps position, new keys
append).  The backend collaborator `userDb` is modelled by recording the calls
the store issues, and the long-lived current-user subscription by a step
function over feed events.  Hook callbacks registered via `onLogin`/`onLogout`
are modelled by their registration order together with a flag saying whether
the callback throws when invoked; `try { forEach ... } catch` dispatch is
modelled by `runHooks`.
-/

set_option autoImplicit false

namespace UserStoreModel

/-- A JavaScript value as far as this module inspects values: strings,
booleans, the attached save-capability function, and `undefined` (which also
stands for `null` field reads). -/
inductive JsVal where
  | str (s : String)
  | bool (b : Bool)
  | fn
  | undefined
deriving DecidableEq, Repr

/-- JS truthiness for the values of `JsVal` (`""` and `false` and `undefined`
are falsy, everything else truthy). -/
def truthy : JsVal → Bool
  | .str s => !(s = "")
  | .bool b => b
  | .fn => true
  | .undefined => false

/-- First value bound to `key`, as in `Map.get` / property lookup. -/
def assocGet {α : Type} : List (String × α) → String → Option α
  | [], _ => none
  | (k, v) :: t, key => if k = key then some v else assocGet t key

/-- Semantics of JS `Map.set` / property assignment: replace the value of an existing key
in place (keeping its position), otherwise append the new binding. -/
def assocSet {α : Type} : List (String × α) → String → α → List (String × α)
  | [], key, v => [(key, v)]
  | (k, w) :: t, key, v =>
      if k = key then (k, v) :: t else (k, w) :: assocSet t key v

/-- A JavaScript object: ordered association list of properties. -/
def JsObj : Type := List (String × JsVal)

instance : DecidableEq JsObj := by
  unfold JsObj; infer_instance

instance : Repr JsObj := by
  unfold JsObj; infer_instance

/-- Property read, `undefined` when absent. -/
def objGet (o : JsObj) (key : String) : JsVal :=
  (assocGet o key).getD .undefined

/-- Property write. -/
def objSet (o : JsObj) (key : String) (v : JsVal) : JsObj :=
  assocSet o key v

/-- The JS `delete` operator: remove the property. -/
def objDelete : JsObj → String → JsObj
  | [], _ => []
  | (k, v) :: t, key =>
      if k = key then objDelete t key else (k, v) :: objDelete t key

/-- Whether the object has the property at all. -/
def hasKey (o : JsObj) (key : String) : Bool :=
  (assocGet o key).isSome

/-- The observable state of the `UserStore` singleton:
`userId`, `usersMap`, `privateInfo`, `serverInfo`. -/
structure UserStore where
  userId : Option String
  usersMap : List (String × JsObj)
  privateInfo : Option JsObj
  serverInfo : Option JsObj
deriving DecidableEq, Repr

/-- The store right after construction: all fields `null` / empty. -/
def initStore : UserStore :=
  { userId := none, usersMap := [], privateInfo := none, serverInfo := none }

/-- The `user` computed getter: `this.usersMap.get(this.userId)`
(`Map.get(null)` is `undefined`). -/
def UserStore.user (s : UserStore) : Option JsObj :=
  match s.userId with
  | none => none
  | some uid => assocGet s.usersMap uid

/-- The composite view built by the `fullUser` computed getter:
`{id, public, private, server}`. -/
structure FullUser where
  id : Option String
  pub : Option JsObj
  priv : Option JsObj
  server : Option JsObj
deriving DecidableEq, Repr

/-- The `fullUser` computed getter. -/
def UserStore.fullUser (s : UserStore) : FullUser :=
  { id := s.userId, pub := s.user, priv := s.privateInfo, server := s.serverInfo }

/-- The in-place normalization `_savePublicUserInfo` performs on the profile
object before caching it: `displayName = email`, `save = _updateUser`,
`id = userId`. -/
def normalizePublic (uid : String) (u : JsObj) : JsObj :=
  objSet (objSet (objSet u "displayName" (objGet u "email")) "save" .fn) "id" (.str uid)

/-- Model of `_savePublicUserInfo(userId, user)`: no-op on a falsy `user`, otherwise
normalize the object and `usersMap.set(userId, user)`. -/
def savePublicUserInfo (s : UserStore) (uid : String) (user : Option JsObj) : UserStore :=
  match user with
  | none => s
  | some u => { s with usersMap := assocSet s.usersMap uid (normalizePublic uid u) }

/-- The `{id, publicInfo, privateInfo, serverInfo}` payload delivered on the
current-user feed (`userDataByPrivacy`). -/
structure UserDataByPrivacy where
  id : String
  publicInfo : Option JsObj
  privateInfo : Option JsObj
  serverInfo : Option JsObj
deriving DecidableEq, Repr

/-- Model of `_saveCurrentUserLocally(userDataByPrivacy)`: cache `publicInfo` when
present and set `userId` when `publicInfo.isOnline` is truthy; overwrite
`privateInfo` / `serverInfo` slices when present. -/
def saveCurrentUserLocally (s : UserStore) (d : UserDataByPrivacy) : UserStore :=
  let s1 :=
    match d.publicInfo with
    | none => s
    | some p =>
        let s' := savePublicUserInfo s d.id (some p)
        if truthy (objGet p "isOnline") then { s' with userId := some d.id } else s'
  let s2 :=
    match d.privateInfo with
    | none => s1
    | some pi => { s1 with privateInfo := some pi }
  match d.serverInfo with
  | none => s2
  | some si => { s2 with serverInfo := some si }

/-- An event delivered by `userDb.listenToCurrentUser`: an error, an absence
signal (`userData` null), or a data payload. -/
inductive FeedEvent where
  | error
  | absence
  | data (d : UserDataByPrivacy)
deriving DecidableEq, Repr

/-- Model of `try { triggers.forEach(event => event(user)) } catch`: callbacks run
in registration order; a throwing callback (flag `true`) aborts the `forEach`
and the error is caught outside the loop.  Returns the indices of the
callbacks that were invoked (the throwing one included: it ran, then threw). -/
def runHooks : List Bool → List Nat
  | [] => []
  | h :: t => 0 :: (if h then [] else (runHooks t).map (· + 1))

/-- The argument `{id: userData.publicInfo.id, publicInfo: userData.publicInfo}`
passed to the `onLogin` hooks; by aliasing, `publicInfo` is the object as
mutated by `_savePublicUserInfo`'s normalization. -/
structure EstablishedUser where
  id : JsVal
  publicInfo : JsObj
deriving DecidableEq, Repr

/-- One hook dispatch, recording which registered callbacks ran and the
argument they received. -/
inductive HookDispatch where
  | login (ran : List Nat) (arg : EstablishedUser)
  | logout (ran : List Nat) (arg : FullUser)
deriving DecidableEq, Repr

/-- Whether a dispatch is an `onLogin` dispatch. -/
def HookDispatch.isLogin : HookDispatch → Bool
  | .login _ _ => true
  | .logout _ _ => false

/-- The body of the `userDb.listenToCurrentUser` callback installed by
`_listenToCurrentUser`, for one event: errors are ignored; an absence signal
runs `_handleUserLogout` (only if a user was set) and then clears `userId`;
a data payload computes `shouldExecEstablished = !userStore.user &&
userData.publicInfo` BEFORE `_saveCurrentUserLocally`, then runs
`_handleUserEstablished` if the flag was set.  `loginHooks` / `logoutHooks`
are the registered `_onLoginTriggers` / `_onLogoutTriggers` by throw-flag. -/
def listenToCurrentUserStep (loginHooks logoutHooks : List Bool)
    (s : UserStore) : FeedEvent → UserStore × List HookDispatch
  | .error => (s, [])
  | .absence =>
      if s.userId.isSome then
        ({ s with userId := none },
         [HookDispatch.logout (runHooks logoutHooks) s.fullUser])
      else
        ({ s with userId := none }, [])
  | .data d =>
      let fire := s.user.isNone
      let s' := saveCurrentUserLocally s d
      match d.publicInfo with
      | some p =>
          if fire then
            let np := normalizePublic d.id p
            (s', [HookDispatch.login (runHooks loginHooks) ⟨objGet np "id", np⟩])
          else (s', [])
      | none => (s', [])

/-- Run a sequence of current-user feed events through the subscription
handler, collecting every hook dispatch in order. -/
def runFeed (loginHooks logoutHooks : List Bool)
    (s : UserStore) : List FeedEvent → UserStore × List HookDispatch
  | [] => (s, [])
  | e :: es =>
      let r := listenToCurrentUserStep loginHooks logoutHooks s e
      let r' := runFeed loginHooks logoutHooks r.1 es
      (r'.1, r.2 ++ r'.2)

/-- Per-event trace of whether the `onLogin` hooks were dispatched at that
event. -/
def loginFireFlags (loginHooks logoutHooks : List Bool)
    (s : UserStore) : List FeedEvent → List Bool
  | [] => []
  | e :: es =>
      let r := listenToCurrentUserStep loginHooks logoutHooks s e
      (r.2.any HookDispatch.isLogin) :: loginFireFlags loginHooks logoutHooks r.1 es

/-- A request the store issues to the `userDb` backend collaborator. -/
inductive BackendCall where
  | createUserCall (email password : String)
  | listenToUserCall (uid : String)
  | logoutCall (arg : Option JsObj)
  | saveToUsersCollectionCall (uid : String) (publicInfo : JsObj)
deriving DecidableEq, Repr

/-- The `{email, password}` credentials object; a JS-absent field is modelled
by the empty string (both are falsy, and the store only truth-tests them). -/
structure Credentials where
  email : String
  password : String
deriving DecidableEq, Repr

/-- What `createUser` does before any backend response arrives: either the
synchronous validation error handed to the callback, or delegation to
`userDb.createUser`. -/
inductive CreateUserResult where
  | validationError (message : String)
  | delegated
deriving DecidableEq, Repr

/-- Model of `createUser(user, callback)` up to the point control returns to the
caller: the falsy-check on `user`, `user.email`, `user.password` short-circuits
with the error object, touching neither the backend nor the store state;
otherwise it issues `userDb.createUser`.  Returns (callback outcome, store
state after the call, backend calls issued). -/
def createUser (s : UserStore) (user : Option Credentials) :
    CreateUserResult × UserStore × List BackendCall :=
  match user with
  | none => (.validationError "You must provide an email and password", s, [])
  | some c =>
      if c.email = "" ∨ c.password = "" then
        (.validationError "You must provide an email and password", s, [])
      else
        (.delegated, s, [.createUserCall c.email c.password])

/-- Model of `getUserById(userId)`: return the cached profile when present; on a miss,
`_listenToPublicUserData(userId)` issues one `userDb.listenToUser` request and
the call returns `undefined`.  Store state is not modified by the call
itself. -/
def getUserById (s : UserStore) (uid : String) : Option JsObj × List BackendCall :=
  match assocGet s.usersMap uid with
  | some u => (some u, [])
  | none => (none, [.listenToUserCall uid])

/-- The callback `_listenToPublicUserData` installs on `userDb.listenToUser`:
each delivered `user` goes through `_savePublicUserInfo`. -/
def deliverPublicUserData (s : UserStore) (uid : String) (user : Option JsObj) : UserStore :=
  savePublicUserInfo s uid user

/-- Model of `logout()`: `userDb.logout(this.user)` then `this.userId = null`. -/
def logout (s : UserStore) : UserStore × List BackendCall :=
  ({ s with userId := none }, [.logoutCall s.user])

/-- JS `a.includes(b)` on strings: `b` occurs as a contiguous substring. -/
def jsIncludes (s pat : String) : Bool :=
  decide (pat.toList <:+: s.toList)

/-- The body of the `forEach` loop of `searchFromLocalUsersByField`: push the
entry's user when its `field` is a string whose upper-casing contains the
upper-cased query. -/
def searchStep (field query : String) (results : List JsObj) (entry : String × JsObj) : List JsObj :=
  match objGet entry.2 field with
  | .str v =>
      if jsIncludes v.toUpper query.toUpper then results ++ [entry.2] else results
  | _ => results

/-- Model of `searchFromLocalUsersByField(field, query)`: iterate
`usersMap.entries()` in insertion order, accumulating matches. -/
def searchFromLocalUsersByField (s : UserStore) (field query : String) : List JsObj :=
  s.usersMap.foldl (searchStep field query) []

/-- The spec-side match predicate, worded after the spec: the profile's named
field is a string containing the query as a case-insensitive substring. -/
def specFieldMatches (field query : String) (u : JsObj) : Bool :=
  match objGet u field with
  | .str v => jsIncludes v.toUpper query.toUpper
  | _ => false

/-- Model of `_updateUser`, the bound save capability, invoked with `this = user`:
read `uid = user.id`, `delete` the injected `save`, `id`, `displayName`
properties, send `userDb.saveToUsersCollection(uid, {publicInfo: user})` and
re-cache via `_savePublicUserInfo(uid, user)` (which reapplies the deleted
properties). -/
def updateUser (s : UserStore) (user : JsObj) : UserStore × List BackendCall :=
  let uid := match objGet user "id" with | .str u => u | _ => ""
  let stripped := objDelete (objDelete (objDelete user "save") "id") "displayName"
  (savePublicUserInfo s uid (some stripped),
   [.saveToUsersCollectionCall uid stripped])

/-- Whether a data payload carries a `publicInfo` whose `isOnline` is truthy
(the condition under which `_saveCurrentUserLocally` assigns `userId`). -/
def payloadOnline (d : UserDataByPrivacy) : Bool :=
  match d.publicInfo with
  | some p => truthy (objGet p "isOnline")
  | none => false

/-- One step of the spec-side authentication status of claim C1: an absence
signal clears it, a payload carrying `publicInfo` replaces it with that
payload's `isOnline`, other events leave it alone. -/
def specAuthStep (b : Bool) : FeedEvent → Bool
  | .error => b
  | .absence => false
  | .data d =>
      match d.publicInfo with
      | some _ => payloadOnline d
      | none => b

/-- Spec-side authentication status, worded after the claim: true exactly when
the most recently applied `publicInfo` payload had `isOnline = true` and no
absence signal has been delivered after it. -/
def specMostRecentOnline (events : List FeedEvent) : Bool :=
  events.foldl specAuthStep false

/-- One step of the authentication status the code actually maintains: an
absence signal clears it, an online `publicInfo` payload sets it, every other
event (offline payloads included) leaves it alone. -/
def authStep (b : Bool) : FeedEvent → Bool
  | .error => b
  | .absence => false
  | .data d => if payloadOnline d then true else b

/-- Authentication status as the code actually maintains it: true exactly when
some `publicInfo` payload with truthy `isOnline` has been applied and no
absence signal has been delivered after it (offline payloads leave the status
unchanged). -/
def onlineSinceLastAbsence (events : List FeedEvent) : Bool :=
  events.foldl authStep false

/-- A feed event that is a data payload carrying a `publicInfo` whose
`isOnline` is truthy. -/
def isOnlinePayload : FeedEvent → Bool
  | .data d => payloadOnline d
  | _ => false

/-- Example raw backend profile used in concrete instantiations. -/
def bobObj : JsObj := [("email", .str "bob@x.com")]

/-- Second example raw backend profile. -/
def aliceObj : JsObj := [("email", .str "alice@x.com")]

/-- Example current-user data payload whose `publicInfo` is online. -/
def onPayload : UserDataByPrivacy :=
  { id := "u1", publicInfo := some [("isOnline", .bool true)],
    privateInfo := none, serverInfo := none }

/-- Example current-user data payload whose `publicInfo` is offline. -/
def offPayload : UserDataByPrivacy :=
  { id := "u1", publicInfo := some [("isOnline", .bool false)],
    privateInfo := none, serverInfo := none }

/-- Example current-user data payload for a second user, online. -/
def onPayload2 : UserDataByPrivacy :=
  { id := "u2", publicInfo := some [("isOnline", .bool true)],
    privateInfo := none, serverInfo := none }

/-- Example authenticated store state carrying private data. -/
def authStoreA : UserStore :=
  { userId := some "u1",
    usersMap := [("u1", normalizePublic "u1" bobObj)],
    privateInfo := some [("secret", .str "1")],
    serverInfo := none }

/-- The same state as `authStoreA` but with no private data. -/
def authStoreB : UserStore :=
  { userId := some "u1",
    usersMap := [("u1", normalizePublic "u1" bobObj)],
    privateInfo := none,
    serverInfo := none }

/-! ## Basic lemmas about the object and map operations -/

theorem assocGet_assocSet_self {α : Type} (m : List (String × α)) (k : String) (v : α) :
    assocGet (assocSet m k v) k = some v := by
  induction m with
  | nil => simp [assocSet, assocGet]
  | cons h t ih =>
      obtain ⟨k0, w⟩ := h
      by_cases hk : k0 = k
      · simp [assocSet, hk, assocGet]
      · simp [assocSet, hk, assocGet, ih]

theorem assocGet_assocSet_ne {α : Type} (m : List (String × α)) (k k' : String) (v : α)
    (h : k' ≠ k) : assocGet (assocSet m k v) k' = assocGet m k' := by
  induction m with
  | nil =>
      have hne : ¬k = k' := fun hh => h hh.symm
      simp [assocSet, assocGet, hne]
  | cons hd t ih =>
      obtain ⟨k0, w⟩ := hd
      by_cases hk : k0 = k
      · subst hk
        have hne : ¬k0 = k' := fun hh => h hh.symm
        simp [assocSet, assocGet, hne]
      · simp [assocSet, hk, assocGet, ih]

theorem objGet_objSet_self (o : JsObj) (k : String) (v : JsVal) :
    objGet (objSet o k v) k = v := by
  simp [objGet, objSet, assocGet_assocSet_self]

theorem objGet_objSet_ne (o : JsObj) (k k' : String) (v : JsVal) (h : k' ≠ k) :
    objGet (objSet o k v) k' = objGet o k' := by
  simp [objGet, objSet, assocGet_assocSet_ne _ _ _ _ h]

theorem objDelete_objSet_self (o : JsObj) (k : String) (v : JsVal) :
    objDelete (objSet o k v) k = objDelete o k := by
  simp only [objSet]
  induction o with
  | nil => simp [assocSet, objDelete]
  | cons hd t ih =>
      obtain ⟨k0, w⟩ := hd
      by_cases hk : k0 = k
      · subst hk
        simp [assocSet, objDelete]
      · simp [assocSet, hk, objDelete, ih]

theorem objDelete_objSet_ne (o : JsObj) (k k' : String) (v : JsVal) (h : k' ≠ k) :
    objDelete (objSet o k' v) k = objSet (objDelete o k) k' v := by
  simp only [objSet]
  induction o with
  | nil =>
      have hne : ¬k' = k := fun hh => h hh
      simp [assocSet, objDelete, hne]
  | cons hd t ih =>
      obtain ⟨k0, w⟩ := hd
      by_cases hk : k0 = k'
      · subst hk
        have hne : ¬k0 = k := fun hh => h hh
        simp [assocSet, objDelete, hne]
      · by_cases hk2 : k0 = k
        · subst hk2
          simp [assocSet, hk, objDelete, ih]
        · simp [assocSet, hk, objDelete, hk2, ih]

theorem objDelete_of_not_hasKey (o : JsObj) (k : String) (h : hasKey o k = false) :
    objDelete o k = o := by
  induction o with
  | nil => rfl
  | cons hd t ih =>
      obtain ⟨k0, w⟩ := hd
      by_cases hk : k0 = k
      · simp [hasKey, assocGet, hk] at h
      · simp [hasKey, assocGet, hk] at h
        simp [objDelete, hk, ih (by simp [hasKey, h])]

/-! ## Lemmas about hook dispatch and the feed step -/

theorem runHooks_all_false (flags : List Bool) (h : ∀ b ∈ flags, b = false) :
    runHooks flags = List.range flags.length := by
  induction flags with
  | nil => rfl
  | cons b t ih =>
      have hb : b = false := h b (by simp)
      subst hb
      have ht : ∀ x ∈ t, x = false := fun x hx => h x (by simp [hx])
      simp [runHooks, ih ht, List.range_succ_eq_map]

theorem saveCurrentUserLocally_userId (s : UserStore) (d : UserDataByPrivacy) :
    (saveCurrentUserLocally s d).userId =
      if payloadOnline d then some d.id else s.userId := by
  obtain ⟨i, pub, priv, srv⟩ := d
  rcases pub with _ | p <;> rcases priv with _ | pi <;> rcases srv with _ | si <;>
    simp [saveCurrentUserLocally, payloadOnline, savePublicUserInfo] <;>
    split <;> simp

theorem saveCurrentUserLocally_usersMap (s : UserStore) (d : UserDataByPrivacy) :
    (saveCurrentUserLocally s d).usersMap =
      match d.publicInfo with
      | some p => assocSet s.usersMap d.id (normalizePublic d.id p)
      | none => s.usersMap := by
  obtain ⟨i, pub, priv, srv⟩ := d
  rcases pub with _ | p <;> rcases priv with _ | pi <;> rcases srv with _ | si <;>
    simp [saveCurrentUserLocally, savePublicUserInfo] <;>
    split <;> simp

theorem saveCurrentUserLocally_user_isSome (s : UserStore) (d : UserDataByPrivacy)
    (h : payloadOnline d = true) :
    (saveCurrentUserLocally s d).user.isSome = true := by
  obtain ⟨p, hp⟩ : ∃ p, d.publicInfo = some p := by
    unfold payloadOnline at h
    cases hp : d.publicInfo with
    | none => rw [hp] at h; cases h
    | some p => exact ⟨p, rfl⟩
  have h1 := saveCurrentUserLocally_userId s d
  have h2 := saveCurrentUserLocally_usersMap s d
  rw [h] at h1
  rw [hp] at h2
  simp only [if_true] at h1
  simp [UserStore.user, h1, h2, assocGet_assocSet_self]

theorem step_data_state (lh lz : List Bool) (s : UserStore) (d : UserDataByPrivacy) :
    (listenToCurrentUserStep lh lz s (.data d)).1 = saveCurrentUserLocally s d := by
  cases hp : d.publicInfo with
  | none => simp [listenToCurrentUserStep, hp]
  | some p =>
      by_cases h : s.user.isNone = true <;> simp [listenToCurrentUserStep, hp, h]

theorem step_data_no_fire (lh lz : List Bool) (s : UserStore) (d : UserDataByPrivacy)
    (h : s.user.isSome = true) :
    (listenToCurrentUserStep lh lz s (.data d)).2 = [] := by
  have hn : s.user.isNone = false := by
    cases hu : s.user <;> simp [hu] at h ⊢
  cases hp : d.publicInfo <;> simp [listenToCurrentUserStep, hp, hn]

theorem step_data_fire (lh lz : List Bool) (s : UserStore) (d : UserDataByPrivacy)
    (p : JsObj) (hp : d.publicInfo = some p) (h : s.user.isNone = true) :
    (listenToCurrentUserStep lh lz s (.data d)).2 =
      [HookDispatch.login (runHooks lh)
        ⟨objGet (normalizePublic d.id p) "id", normalizePublic d.id p⟩] := by
  simp [listenToCurrentUserStep, hp, h]

theorem step_userId_isSome (lh lz : List Bool) (s : UserStore) (e : FeedEvent) :
    ((listenToCurrentUserStep lh lz s e).1.userId).isSome = authStep s.userId.isSome e := by
  cases e with
  | error => rfl
  | absence =>
      by_cases h : s.userId.isSome = true <;>
        simp [listenToCurrentUserStep, authStep, h]
  | data d =>
      rw [step_data_state, saveCurrentUserLocally_userId]
      by_cases h : payloadOnline d = true <;> simp [authStep, h]

theorem runFeed_userId_isSome (lh lz : List Bool) (es : List FeedEvent) (s : UserStore) :
    ((runFeed lh lz s es).1.userId).isSome = es.foldl authStep s.userId.isSome := by
  induction es generalizing s with
  | nil => rfl
  | cons e t ih =>
      simp only [runFeed, List.foldl_cons]
      rw [ih, step_userId_isSome]

theorem loginFireFlags_established (lh lz : List Bool) (es : List FeedEvent) (s : UserStore)
    (hs : s.user.isSome = true) (hes : ∀ e ∈ es, isOnlinePayload e = true) :
    loginFireFlags lh lz s es = es.map (fun _ => false) := by
  induction es generalizing s with
  | nil => rfl
  | cons e t ih =>
      have he : isOnlinePayload e = true := hes e (by simp)
      obtain ⟨d, rfl⟩ : ∃ d, e = .data d := by
        cases e with
        | error => simp [isOnlinePayload] at he
        | absence => simp [isOnlinePayload] at he
        | data d => exact ⟨d, rfl⟩
      have hd : payloadOnline d = true := he
      have ht : ∀ x ∈ t, isOnlinePayload x = true := fun x hx => hes x (by simp [hx])
      simp only [loginFireFlags, List.map_cons]
      rw [step_data_no_fire lh lz s d hs, step_data_state]
      simp [ih _ (saveCurrentUserLocally_user_isSome s d hd) ht]

/-! ## Claim theorems -/

/-- C1, counterexample: the claimed invariant "`currentUserId` is non-null iff
the most recently applied `publicInfo` payload had `isOnline = true` and no
subsequent absence signal has been delivered" fails on the concrete event
sequence online-payload-then-offline-payload: the offline payload does not
clear `userId`, so `currentUserId` is still non-null although the most
recently applied `publicInfo` payload was offline. -/
theorem userId_not_iff_most_recent_online :
    ¬ (((runFeed [] [] initStore [.data onPayload, .data offPayload]).1.userId ≠ none)
        ↔ specMostRecentOnline [.data onPayload, .data offPayload] = true) := by
  decide

/-- C1, amended: for every sequence of current-user feed events,
`currentUserId` is non-null iff some `publicInfo` payload with
`isOnline = true` has been applied and no subsequent absence signal has been
delivered (an offline `publicInfo` payload leaves `currentUserId` as it
was). -/
theorem userId_isSome_iff_online_since_absence (lh lz : List Bool) (es : List FeedEvent) :
    (runFeed lh lz initStore es).1.userId ≠ none ↔ onlineSinceLastAbsence es = true := by
  rw [Option.ne_none_iff_isSome, runFeed_userId_isSome]
  exact Iff.rfl

/-- C2, counterexample: over the event sequence of two offline `publicInfo`
payloads about the same user `"u1"` with no absence signal in between, the
`onLogin` hooks are dispatched at both events (and no online public profile
was ever received), refuting "fire exactly once at the transition to the
first online public profile received, and never fire again for later data
payloads about the same user". -/
theorem login_hooks_refire_for_offline_payloads :
    loginFireFlags [] [] initStore [.data offPayload, .data offPayload] = [true, true] ∧
    ¬ ((loginFireFlags [] [] initStore [.data offPayload, .data offPayload]).count true ≤ 1) := by
  constructor
  · decide
  · decide

/-- C2, amended: the first-sighting flag is computed before the cache is
mutated, and it is "no current-user public profile cached and the payload
carries `publicInfo`" — not "first ONLINE profile".  Consequently, when every
delivered `publicInfo` payload is online, the `onLogin` hooks fire exactly
once, at the first payload, and never again for later data payloads while the
established user stays cached; but a trace of offline payloads can re-fire
them (see the counterexample). -/
theorem login_hooks_once_for_online_trace (lh lz : List Bool) (d : UserDataByPrivacy)
    (es : List FeedEvent) (hd : payloadOnline d = true)
    (hes : ∀ e ∈ es, isOnlinePayload e = true) :
    loginFireFlags lh lz initStore (.data d :: es) = true :: es.map (fun _ => false) := by
  obtain ⟨p, hp⟩ : ∃ p, d.publicInfo = some p := by
    unfold payloadOnline at hd
    cases hp : d.publicInfo with
    | none => rw [hp] at hd; cases hd
    | some p => exact ⟨p, rfl⟩
  have h0 : (initStore : UserStore).user.isNone = true := rfl
  simp only [loginFireFlags, List.map_cons]
  rw [step_data_fire lh lz initStore d p hp h0, step_data_state]
  simp [HookDispatch.isLogin,
    loginFireFlags_established lh lz es _ (saveCurrentUserLocally_user_isSome initStore d hd) hes]

/-- C2, witness for the amended theorem: on the all-online trace for users
`"u1"`, `"u1"`, `"u2"`, the hooks fire at the first event only. -/
theorem login_hooks_once_for_online_trace_witness :
    loginFireFlags [] [] initStore [.data onPayload, .data onPayload, .data onPayload2]
      = [true, false, false] := by
  have h := login_hooks_once_for_online_trace [] [] onPayload
    [.data onPayload, .data onPayload2] (by decide) (by decide)
  simpa using h

/-- C3, counterexample: with two registered callbacks of which the first
throws, the dispatch loop `try { triggers.forEach(...) } catch` runs only the
first callback: the callback registered after the throwing one does NOT run,
because the exception aborts the `forEach` and is only caught outside the
loop.  This refutes "the callbacks registered after it in the same dispatch
still run". -/
theorem hook_throw_skips_later_callbacks :
    runHooks [true, false] = [0] ∧ ¬ (1 ∈ runHooks [true, false]) := by
  decide

/-- C3, amended: a callback throwing is caught outside the `forEach` (the
error does not propagate, and in the model the dispatch returns normally),
but it aborts the rest of the dispatch: exactly the callbacks up to and
including the first throwing one run, in registration order. -/
theorem runHooks_up_to_first_throw (flags : List Bool) :
    runHooks flags = List.range (min (flags.findIdx (fun b => b) + 1) flags.length) := by
  induction flags with
  | nil => rfl
  | cons b t ih =>
      cases b with
      | true =>
          simp [runHooks, List.findIdx_cons, Nat.min_def]
          decide
      | false =>
          simp only [runHooks, List.findIdx_cons, cond_false, if_false]
          rw [ih]
          simp [Nat.succ_min_succ, List.range_succ_eq_map]

/-- C4: an absence signal delivered while `currentUserId` is non-null runs the
`onLogout` hooks exactly once (one dispatch), in registration order (indices
`0, ..., n-1`), each receiving the composite `{id, public, private, server}`
view computed from the state immediately before `userId` is cleared; an
absence signal while unauthenticated dispatches no hooks.  Stated for
non-throwing callbacks (throwing callbacks are the subject of C3). -/
theorem logout_hooks_on_absence (lh lz : List Bool) (s : UserStore)
    (hz : ∀ b ∈ lz, b = false) :
    listenToCurrentUserStep lh lz s .absence =
      ({ s with userId := none },
       if s.userId.isSome then
         [HookDispatch.logout (List.range lz.length) s.fullUser]
       else []) := by
  by_cases h : s.userId.isSome = true <;>
    simp [listenToCurrentUserStep, h, runHooks_all_false lz hz]

/-- C4, witness: from an authenticated state with two registered non-throwing
`onLogout` callbacks, the absence signal produces one dispatch running
callbacks 0 and 1 with the pre-clear full view, and clears `userId`. -/
theorem logout_hooks_on_absence_witness :
    listenToCurrentUserStep [] [false, false] authStoreA .absence
      = ({ authStoreA with userId := none },
         [HookDispatch.logout [0, 1] authStoreA.fullUser]) := by
  have h := logout_hooks_on_absence [] [false, false] authStoreA (by decide)
  simpa using h

/-- C5: `createUser` with a missing credentials object, or an empty `email`
or `password`, hands the callback exactly
`{message: "You must provide an email and password"}`, issues no backend
call, and leaves the store state unchanged. -/
theorem createUser_missing_credentials (s : UserStore) (user : Option Credentials)
    (h : user = none ∨ ∃ c, user = some c ∧ (c.email = "" ∨ c.password = "")) :
    createUser s user
      = (.validationError "You must provide an email and password", s, []) := by
  rcases h with rfl | ⟨c, rfl, hc⟩
  · rfl
  · simp [createUser, hc]

/-- C5, witness: the spec's concrete example `{email: "", password: "x"}`. -/
theorem createUser_missing_credentials_witness :
    createUser initStore (some { email := "", password := "x" })
      = (.validationError "You must provide an email and password", initStore, []) :=
  createUser_missing_credentials initStore _ (Or.inr ⟨_, rfl, Or.inl rfl⟩)

/-- C6: `getUserById` returns a cached profile with no backend request; on a
miss it returns absent and issues exactly one `listenToUser` request for that
id; and once that subscription has delivered a profile, a subsequent
`getUserById` returns the (normalized) cached profile with no new request. -/
theorem getUserById_cache_behavior (s : UserStore) (uid : String) :
    (∀ u, assocGet s.usersMap uid = some u → getUserById s uid = (some u, [])) ∧
    (assocGet s.usersMap uid = none →
      getUserById s uid = (none, [BackendCall.listenToUserCall uid]) ∧
      ∀ p : JsObj, getUserById (deliverPublicUserData s uid (some p)) uid
        = (some (normalizePublic uid p), [])) := by
  refine ⟨fun u hu => ?_, fun h => ⟨?_, fun p => ?_⟩⟩
  · simp [getUserById, hu]
  · simp [getUserById, h]
  · simp [getUserById, deliverPublicUserData, savePublicUserInfo, assocGet_assocSet_self]

/-- C6, witness: `getUserById "u1"` on the empty cache misses and issues one
request; after the subscription delivers `bobObj`, it hits; a cache already
holding the profile also hits with no request. -/
theorem getUserById_cache_behavior_witness :
    getUserById initStore "u1" = (none, [BackendCall.listenToUserCall "u1"]) ∧
    getUserById (deliverPublicUserData initStore "u1" (some bobObj)) "u1"
      = (some (normalizePublic "u1" bobObj), []) ∧
    getUserById { initStore with usersMap := [("u1", normalizePublic "u1" bobObj)] } "u1"
      = (some (normalizePublic "u1" bobObj), []) := by
  have h1 := (getUserById_cache_behavior initStore "u1").2 (by decide)
  have h2 := (getUserById_cache_behavior
    { initStore with usersMap := [("u1", normalizePublic "u1" bobObj)] } "u1").1
    (normalizePublic "u1" bobObj) (by decide)
  exact ⟨h1.1, h1.2 bobObj, h2⟩

/-- Helper: one step of the search loop pushes the entry exactly when the
spec-side predicate holds. -/
theorem searchStep_eq (field query : String) (acc : List JsObj) (entry : String × JsObj) :
    searchStep field query acc entry =
      if specFieldMatches field query entry.2 then acc ++ [entry.2] else acc := by
  unfold searchStep specFieldMatches
  cases h : objGet entry.2 field <;> simp [h]

/-- Helper: the search fold is append-filter. -/
theorem searchFoldl_eq (field query : String) (l : List (String × JsObj)) (acc : List JsObj) :
    l.foldl (searchStep field query) acc
      = acc ++ (l.map Prod.snd).filter (specFieldMatches field query) := by
  induction l generalizing acc with
  | nil => simp
  | cons e t ih =>
      rw [List.foldl_cons, ih, searchStep_eq]
      by_cases h : specFieldMatches field query e.2 = true <;>
        simp [h, List.filter_cons]

/-- C7: `searchFromLocalUsersByField` scans only the in-memory cache (the
definition issues no backend call) and returns exactly the cached profiles
whose named field is a string containing the query as a case-insensitive
substring, in cache insertion order; in particular it is empty when nothing
matches. -/
theorem search_matches_cache_filter (s : UserStore) (field query : String) :
    searchFromLocalUsersByField s field query
      = (s.usersMap.map Prod.snd).filter (specFieldMatches field query) := by
  unfold searchFromLocalUsersByField
  rw [searchFoldl_eq]
  simp

/-- C8, counterexample: `logout()` passes `this.user` — the cached public
profile — to the backend, not the full-profile view: two concrete states that
differ only in `privateInfo` issue the identical backend logout request, yet
their full composite views differ, so the request cannot carry the
full-profile view the claim describes. -/
theorem logout_call_ignores_private_info :
    (logout authStoreA).2 = (logout authStoreB).2 ∧
    authStoreA.fullUser ≠ authStoreB.fullUser := by
  constructor
  · rfl
  · decide

/-- C8, amended: `logout()` requests backend logout passing the current
user's cached PUBLIC profile (`usersMap.get(currentUserId)`), then
immediately sets `currentUserId` to `None` without waiting for backend
confirmation, and leaves `profileCache`, `privateInfo` and `serverInfo`
unchanged. -/
theorem logout_optimistic_frame (s : UserStore) :
    (logout s).2 = [BackendCall.logoutCall s.user] ∧
    (logout s).1.userId = none ∧
    (logout s).1.usersMap = s.usersMap ∧
    (logout s).1.privateInfo = s.privateInfo ∧
    (logout s).1.serverInfo = s.serverInfo :=
  ⟨rfl, rfl, rfl, rfl, rfl⟩

/-- C9: invoking the save capability bound to a cached profile (the
normalization of a raw backend profile `p` that carried none of the helper
keys) sends the backend exactly `p` — the profile's public fields, no
injected `save` / `id` / `displayName` helpers — under the profile's id, and
afterwards the cache entry for that id is the normalization again, with
`id`, `displayName` and the save capability reattached. -/
theorem save_capability_roundtrip (s : UserStore) (uid : String) (p : JsObj)
    (h1 : hasKey p "save" = false) (h2 : hasKey p "id" = false)
    (h3 : hasKey p "displayName" = false) :
    updateUser s (normalizePublic uid p)
      = ({ s with usersMap := assocSet s.usersMap uid (normalizePublic uid p) },
         [BackendCall.saveToUsersCollectionCall uid p]) ∧
    objGet (normalizePublic uid p) "save" = .fn ∧
    objGet (normalizePublic uid p) "id" = .str uid ∧
    objGet (normalizePublic uid p) "displayName" = objGet p "email" := by
  have hid : objGet (normalizePublic uid p) "id" = .str uid :=
    objGet_objSet_self _ _ _
  have hsave : objGet (normalizePublic uid p) "save" = .fn := by
    unfold normalizePublic
    rw [objGet_objSet_ne _ _ _ _ (by decide), objGet_objSet_self]
  have hdn : objGet (normalizePublic uid p) "displayName" = objGet p "email" := by
    unfold normalizePublic
    rw [objGet_objSet_ne _ _ _ _ (by decide), objGet_objSet_ne _ _ _ _ (by decide),
      objGet_objSet_self]
  have hstrip :
      objDelete (objDelete (objDelete (normalizePublic uid p) "save") "id") "displayName"
        = p := by
    unfold normalizePublic
    rw [objDelete_objSet_ne _ "save" "id" _ (by decide),
      objDelete_objSet_self (objSet p "displayName" (objGet p "email")) "save" JsVal.fn,
      objDelete_objSet_ne _ "save" "displayName" _ (by decide),
      objDelete_of_not_hasKey p "save" h1]
    rw [objDelete_objSet_self (objSet p "displayName" (objGet p "email")) "id" (.str uid),
      objDelete_objSet_ne _ "id" "displayName" _ (by decide),
      objDelete_of_not_hasKey p "id" h2]
    rw [objDelete_objSet_self p "displayName" (objGet p "email"),
      objDelete_of_not_hasKey p "displayName" h3]
  refine ⟨?_, hsave, hid, hdn⟩
  unfold updateUser
  rw [hid, hstrip]
  simp [savePublicUserInfo]

/-- C9, witness: the round trip on the cached normalization of `bobObj` under
id `"u1"`. -/
theorem save_capability_roundtrip_witness :
    updateUser initStore (normalizePublic "u1" bobObj)
      = ({ initStore with
            usersMap := assocSet initStore.usersMap "u1" (normalizePublic "u1" bobObj) },
         [BackendCall.saveToUsersCollectionCall "u1" bobObj]) ∧
    objGet (normalizePublic "u1" bobObj) "save" = .fn ∧
    objGet (normalizePublic "u1" bobObj) "id" = .str "u1" ∧
    objGet (normalizePublic "u1" bobObj) "displayName" = objGet bobObj "email" :=
  save_capability_roundtrip initStore "u1" bobObj (by decide) (by decide) (by decide)

/-- C10: when the per-id subscription delivers a null/absent profile,
`_savePublicUserInfo` returns without touching any state — no cache entry is
created or overwritten — and a subsequent `getUserById` for that id still
returns absent. -/
theorem deliver_null_profile_noop (s : UserStore) (uid : String) :
    deliverPublicUserData s uid none = s ∧
    (assocGet s.usersMap uid = none →
      (getUserById (deliverPublicUserData s uid none) uid).1 = none) := by
  refine ⟨rfl, fun h => ?_⟩
  simp [deliverPublicUserData, savePublicUserInfo, getUserById, h]

/-- C10, witness: a null delivery for `"u1"` on the empty cache leaves the
store unchanged and `getUserById "u1"` still returns absent. -/
theorem deliver_null_profile_noop_witness :
    deliverPublicUserData initStore "u1" none = initStore ∧
    (getUserById (deliverPublicUserData initStore "u1" none) "u1").1 = none := by
  have h := deliver_null_profile_noop initStore "u1"
  exact ⟨h.1, h.2 (by decide)⟩

end UserStoreModel
